import Mathlib

/-!
Verification of the asset normalizer/placer logic in
`src/app/babylon/AssetTestScene.tsx` and `src/app/babylon/ArcheryGameScene.tsx`.

The scene graph is modelled as a total map `Nat → Node`; each node carries the
fields the code reads or writes: its `instanceof Mesh` tag, its parent pointer,
its world bounding box, its local scaling / position / rotation, and the
property-presence flags that the code probes on parent nodes with the
JavaScript `in` operator (`'scaling' in parent`, `'position' in parent`,
`'rotation' in parent`).  Numbers are rationals; the one place the code can
divide by zero (`targetSize / currentSize`) is modelled with IEEE-style
division into `JsNum`, which has infinities and NaN like a JavaScript number.
Console diagnostics are modelled as a log of `LogEvent`s.
-/

/-- A 3-component vector of (idealized) JavaScript numbers. -/
structure Vec3 where
  x : ℚ
  y : ℚ
  z : ℚ
deriving DecidableEq, Repr

/-- `Vector3.Zero()`. -/
def Vec3.zero : Vec3 := ⟨0, 0, 0⟩

/-- `Vector3.Minimize` — component-wise minimum. -/
def Vec3.minimize (a b : Vec3) : Vec3 := ⟨min a.x b.x, min a.y b.y, min a.z b.z⟩

/-- `Vector3.Maximize` — component-wise maximum. -/
def Vec3.maximize (a b : Vec3) : Vec3 := ⟨max a.x b.x, max a.y b.y, max a.z b.z⟩

/-- `a.subtract(b)` — component-wise subtraction. -/
def Vec3.subtract (a b : Vec3) : Vec3 := ⟨a.x - b.x, a.y - b.y, a.z - b.z⟩

/-- A JavaScript number: a finite value, an infinity, or NaN. -/
inductive JsNum where
  | fin (q : ℚ)
  | posInf
  | negInf
  | nan
deriving DecidableEq, Repr

/-- JavaScript `/` on (idealized) numbers: division by zero yields an
infinity of the numerator's sign, and `0 / 0` yields NaN. -/
def jsDiv (a b : ℚ) : JsNum :=
  if b = 0 then
    if 0 < a then JsNum.posInf
    else if a < 0 then JsNum.negInf
    else JsNum.nan
  else JsNum.fin (a / b)

/-- A 3-component vector of `JsNum`, used for the `scaling` field (the only
field ever assigned a possibly non-finite value). -/
structure JVec3 where
  x : JsNum
  y : JsNum
  z : JsNum
deriving DecidableEq, Repr

/-- A scene-graph node, as observed and mutated by the asset loader. -/
structure Node where
  /-- `instanceof Mesh`. -/
  isMesh : Bool
  /-- `node.parent` — `none` models JavaScript `null`. -/
  parent : Option Nat
  /-- `getBoundingInfo().boundingBox.minimumWorld`. -/
  bbMin : Vec3
  /-- `getBoundingInfo().boundingBox.maximumWorld`. -/
  bbMax : Vec3
  scaling : JVec3
  position : Vec3
  rotation : Vec3
  /-- whether `'scaling' in node` holds (true for transform nodes and meshes,
  false e.g. for cameras and lights). -/
  hasScaling : Bool
  /-- whether `'position' in node` holds. -/
  hasPosition : Bool
  /-- whether `'rotation' in node` holds. -/
  hasRotation : Bool
deriving DecidableEq, Repr

/-- Console diagnostics emitted by the loaders. -/
inductive LogEvent where
  /-- `console.warn` — asset loaded but has no valid meshes (all nodes failed
  the `instanceof Mesh` filter). -/
  | warnNoValidMeshes (name : String)
  /-- `console.warn` — asset loaded but `result.meshes` is empty
  (AssetTestScene only). -/
  | warnNoMeshes (name : String)
  /-- `console.error` — the load or placement threw. -/
  | errorLoading (name : String)
deriving DecidableEq, Repr

/-- The state a load task reads and mutates: the scene graph and the
`loadedAssets` React state list, plus the console log. -/
structure SceneState where
  nodes : Nat → Node
  loadedAssets : List String
  log : List LogEvent

/-- Assign `node.scaling = v` on the node at index `i`. -/
def setScaling (ns : Nat → Node) (i : Nat) (v : JVec3) : Nat → Node :=
  fun j => if j = i then { ns i with scaling := v } else ns j

/-- Assign `node.position = v` on the node at index `i`. -/
def setPosition (ns : Nat → Node) (i : Nat) (v : Vec3) : Nat → Node :=
  fun j => if j = i then { ns i with position := v } else ns j

/-- Assign `node.rotation = v` on the node at index `i`. -/
def setRotation (ns : Nat → Node) (i : Nat) (v : Vec3) : Nat → Node :=
  fun j => if j = i then { ns i with rotation := v } else ns j

@[simp] lemma setScaling_self (ns : Nat → Node) (i : Nat) (v : JVec3) :
    setScaling ns i v i = { ns i with scaling := v } := by simp [setScaling]

@[simp] lemma setScaling_ne (ns : Nat → Node) (i j : Nat) (v : JVec3) (h : j ≠ i) :
    setScaling ns i v j = ns j := by simp [setScaling, h]

@[simp] lemma setPosition_self (ns : Nat → Node) (i : Nat) (v : Vec3) :
    setPosition ns i v i = { ns i with position := v } := by simp [setPosition]

@[simp] lemma setPosition_ne (ns : Nat → Node) (i j : Nat) (v : Vec3) (h : j ≠ i) :
    setPosition ns i v j = ns j := by simp [setPosition, h]

@[simp] lemma setRotation_self (ns : Nat → Node) (i : Nat) (v : Vec3) :
    setRotation ns i v i = { ns i with rotation := v } := by simp [setRotation]

@[simp] lemma setRotation_ne (ns : Nat → Node) (i j : Nat) (v : Vec3) (h : j ≠ i) :
    setRotation ns i v j = ns j := by simp [setRotation, h]

@[simp] lemma setScaling_isMesh (ns : Nat → Node) (i : Nat) (v : JVec3) (j : Nat) :
    (setScaling ns i v j).isMesh = (ns j).isMesh := by
  simp only [setScaling]; split <;> simp_all

@[simp] lemma setPosition_isMesh (ns : Nat → Node) (i : Nat) (v : Vec3) (j : Nat) :
    (setPosition ns i v j).isMesh = (ns j).isMesh := by
  simp only [setPosition]; split <;> simp_all

@[simp] lemma setRotation_isMesh (ns : Nat → Node) (i : Nat) (v : Vec3) (j : Nat) :
    (setRotation ns i v j).isMesh = (ns j).isMesh := by
  simp only [setRotation]; split <;> simp_all

@[simp] lemma setScaling_parent (ns : Nat → Node) (i : Nat) (v : JVec3) (j : Nat) :
    (setScaling ns i v j).parent = (ns j).parent := by
  simp only [setScaling]; split <;> simp_all

@[simp] lemma setPosition_parent (ns : Nat → Node) (i : Nat) (v : Vec3) (j : Nat) :
    (setPosition ns i v j).parent = (ns j).parent := by
  simp only [setPosition]; split <;> simp_all

@[simp] lemma setRotation_parent (ns : Nat → Node) (i : Nat) (v : Vec3) (j : Nat) :
    (setRotation ns i v j).parent = (ns j).parent := by
  simp only [setRotation]; split <;> simp_all

@[simp] lemma setPosition_scaling (ns : Nat → Node) (i : Nat) (v : Vec3) (j : Nat) :
    (setPosition ns i v j).scaling = (ns j).scaling := by
  simp only [setPosition]; split <;> simp_all

@[simp] lemma setRotation_scaling (ns : Nat → Node) (i : Nat) (v : Vec3) (j : Nat) :
    (setRotation ns i v j).scaling = (ns j).scaling := by
  simp only [setRotation]; split <;> simp_all

@[simp] lemma setScaling_position (ns : Nat → Node) (i : Nat) (v : JVec3) (j : Nat) :
    (setScaling ns i v j).position = (ns j).position := by
  simp only [setScaling]; split <;> simp_all

@[simp] lemma setRotation_position (ns : Nat → Node) (i : Nat) (v : Vec3) (j : Nat) :
    (setRotation ns i v j).position = (ns j).position := by
  simp only [setRotation]; split <;> simp_all

@[simp] lemma setScaling_rotation (ns : Nat → Node) (i : Nat) (v : JVec3) (j : Nat) :
    (setScaling ns i v j).rotation = (ns j).rotation := by
  simp only [setScaling]; split <;> simp_all

@[simp] lemma setPosition_rotation (ns : Nat → Node) (i : Nat) (v : Vec3) (j : Nat) :
    (setPosition ns i v j).rotation = (ns j).rotation := by
  simp only [setPosition]; split <;> simp_all

/-- The `{min, max, size}` record returned by `getBoundingBox`. -/
structure BoundingBoxResult where
  min : Vec3
  max : Vec3
  size : Vec3
deriving DecidableEq, Repr

/-- Component-level state: the scene state plus the `loading` React flag. -/
structure ComponentState where
  scene : SceneState
  loading : Bool

namespace AssetTestScene

/-- `getBoundingBox` of `src/app/babylon/AssetTestScene.tsx` (lines 46-65):
returns `null` for an empty list; otherwise initializes the running min/max
from the first mesh's world bounding box, folds `Vector3.Minimize` /
`Vector3.Maximize` over the whole list (guarded by `instanceof Mesh`), and
returns `{min, max, size}` with `size = max.subtract(min)`. -/
def getBoundingBox (meshes : List Node) : Option BoundingBoxResult :=
  match meshes with
  | [] => none
  | m0 :: _ =>
    let acc := meshes.foldl
      (fun (acc : Vec3 × Vec3) mesh =>
        if mesh.isMesh then
          (Vec3.minimize acc.1 mesh.bbMin, Vec3.maximize acc.2 mesh.bbMax)
        else acc)
      (m0.bbMin, m0.bbMax)
    some { min := acc.1, max := acc.2, size := Vec3.subtract acc.2 acc.1 }

/-- Line 96: `result.meshes.find(mesh => !mesh.parent) || result.meshes[0]`. -/
def rootMeshOf (ns : Nat → Node) (resultMeshes : List Nat) : Nat :=
  (resultMeshes.find? fun i => (ns i).parent.isNone).getD (resultMeshes.headD 0)

/-- Lines 103-107: `Math.max(|size.x|, |size.y|, |size.z|)`. -/
def currentSizeOf (boundingBox : BoundingBoxResult) : ℚ :=
  max |boundingBox.size.x| (max |boundingBox.size.y| |boundingBox.size.z|)

/-- Line 110: `scaleFactor = targetSize / currentSize` (JavaScript division,
which yields an infinity or NaN when `currentSize` is zero). -/
def scaleFactorOf (targetSize : ℚ) (boundingBox : BoundingBoxResult) : JsNum :=
  jsDiv targetSize (currentSizeOf boundingBox)

/-- `loadAsset` of `src/app/babylon/AssetTestScene.tsx` (lines 68-142).
`result` is the settled outcome of the awaited `SceneLoader.ImportMeshAsync`
call: an exception, or the `result.meshes` array given as indices into the
scene graph.  Parent pointers are never mutated by this function, so the
condition reads on `rootMesh.parent` use the entry state, exactly as the
captured JavaScript object references do.  The source function is `async`
with no `return` value on any path, so the resolved value is always `none`.
Console `.log` success messages are not modelled; the warn/error diagnostics
are. -/
def loadAsset (st : SceneState) (result : Except Unit (List Nat))
    (position : Vec3) (name : String) (targetSize : ℚ) :
    SceneState × Option Nat :=
  match result with
  | Except.error _ =>
    ({ st with log := st.log ++ [LogEvent.errorLoading name] }, none)
  | Except.ok resultMeshes =>
    if resultMeshes.length > 0 then
      let meshes := resultMeshes.filter fun i => (st.nodes i).isMesh
      if meshes.length = 0 then
        ({ st with log := st.log ++ [LogEvent.warnNoValidMeshes name] }, none)
      else
        let rootMesh := rootMeshOf st.nodes resultMeshes
        let boundingBox := getBoundingBox (meshes.map st.nodes)
        let nodes1 :=
          match boundingBox with
          | some bb =>
            let scaleFactor := scaleFactorOf targetSize bb
            match (st.nodes rootMesh).parent with
            | some p =>
              if (st.nodes p).hasScaling then
                setScaling st.nodes p ⟨scaleFactor, scaleFactor, scaleFactor⟩
              else
                setScaling st.nodes rootMesh ⟨scaleFactor, scaleFactor, scaleFactor⟩
            | none => setScaling st.nodes rootMesh ⟨scaleFactor, scaleFactor, scaleFactor⟩
          | none => st.nodes
        -- line 123: `rootMesh.position = position` (unconditional)
        let nodes2 := setPosition nodes1 rootMesh position
        -- lines 126-129: if the parent has a `position` property, position it
        -- instead and reset the root's local position to the origin
        let nodes3 :=
          match (st.nodes rootMesh).parent with
          | some p =>
            if (st.nodes p).hasPosition then
              setPosition (setPosition nodes2 p position) rootMesh Vec3.zero
            else nodes2
          | none => nodes2
        ({ st with nodes := nodes3, loadedAssets := st.loadedAssets ++ [name] }, none)
    else
      ({ st with log := st.log ++ [LogEvent.warnNoMeshes name] }, none)

/-- One entry of the `Promise.all` batch (lines 147-154): the settled loader
outcome together with the placement arguments passed to `loadAsset`. -/
structure LoadRequest where
  result : Except Unit (List Nat)
  position : Vec3
  name : String
  targetSize : ℚ

/-- Whether a request reaches the success path of `loadAsset` (loader
succeeded, `result.meshes` non-empty, and at least one passes the
`instanceof Mesh` filter).  This only depends on the `isMesh` field of the
scene nodes. -/
def succeeds (ns : Nat → Node) (r : LoadRequest) : Bool :=
  match r.result with
  | Except.error _ => false
  | Except.ok resultMeshes =>
    decide (resultMeshes.length > 0) &&
      !decide ((resultMeshes.filter fun i => (ns i).isMesh).length = 0)

/-- Run the post-`await` continuations of the batch in the order the loads
complete.  Each task's continuation runs atomically on the single-threaded
event loop (the only suspension point is the awaited import), so the batch is
a fold of `loadAsset` over the completion order. -/
def runLoads (st : SceneState) (completed : List LoadRequest) : SceneState :=
  completed.foldl
    (fun s r => (loadAsset s r.result r.position r.name r.targetSize).1) st

/-- `Promise.all([...]).then(() => setLoading(false))` (lines 147-154): every
per-asset task catches its own errors, so the join always fires and clears the
loading flag after all tasks settle. -/
def runBatch (st : SceneState) (completed : List LoadRequest) : ComponentState :=
  { scene := runLoads st completed, loading := false }

end AssetTestScene

namespace ArcheryGameScene

/-- `getBoundingBox` of `src/app/babylon/ArcheryGameScene.tsx` (lines 49-68);
textually identical to the AssetTestScene copy. -/
def getBoundingBox (meshes : List Node) : Option BoundingBoxResult :=
  match meshes with
  | [] => none
  | m0 :: _ =>
    let acc := meshes.foldl
      (fun (acc : Vec3 × Vec3) mesh =>
        if mesh.isMesh then
          (Vec3.minimize acc.1 mesh.bbMin, Vec3.maximize acc.2 mesh.bbMax)
        else acc)
      (m0.bbMin, m0.bbMax)
    some { min := acc.1, max := acc.2, size := Vec3.subtract acc.2 acc.1 }

/-- Line 96: `result.meshes.find(mesh => !mesh.parent) || result.meshes[0]`. -/
def rootMeshOf (ns : Nat → Node) (resultMeshes : List Nat) : Nat :=
  (resultMeshes.find? fun i => (ns i).parent.isNone).getD (resultMeshes.headD 0)

/-- Lines 102-106: `Math.max(|size.x|, |size.y|, |size.z|)`. -/
def currentSizeOf (boundingBox : BoundingBoxResult) : ℚ :=
  max |boundingBox.size.x| (max |boundingBox.size.y| |boundingBox.size.z|)

/-- Line 108: `scaleFactor = targetSize / currentSize`. -/
def scaleFactorOf (targetSize : ℚ) (boundingBox : BoundingBoxResult) : JsNum :=
  jsDiv targetSize (currentSizeOf boundingBox)

/-- `loadAsset` of `src/app/babylon/ArcheryGameScene.tsx` (lines 71-137).
Differences from the AssetTestScene version: it takes a `rotation` argument,
applies position/rotation in a single if/else (lines 118-127), returns the
root mesh on success and `null` otherwise, and does not log a warning when
`result.meshes` is empty (it falls through to `return null`). -/
def loadAsset (st : SceneState) (result : Except Unit (List Nat))
    (position rotation : Vec3) (name : String) (targetSize : ℚ) :
    SceneState × Option Nat :=
  match result with
  | Except.error _ =>
    ({ st with log := st.log ++ [LogEvent.errorLoading name] }, none)
  | Except.ok resultMeshes =>
    if resultMeshes.length > 0 then
      let meshes := resultMeshes.filter fun i => (st.nodes i).isMesh
      if meshes.length = 0 then
        ({ st with log := st.log ++ [LogEvent.warnNoValidMeshes name] }, none)
      else
        let rootMesh := rootMeshOf st.nodes resultMeshes
        let boundingBox := getBoundingBox (meshes.map st.nodes)
        let nodes1 :=
          match boundingBox with
          | some bb =>
            let scaleFactor := scaleFactorOf targetSize bb
            match (st.nodes rootMesh).parent with
            | some p =>
              if (st.nodes p).hasScaling then
                setScaling st.nodes p ⟨scaleFactor, scaleFactor, scaleFactor⟩
              else
                setScaling st.nodes rootMesh ⟨scaleFactor, scaleFactor, scaleFactor⟩
            | none => setScaling st.nodes rootMesh ⟨scaleFactor, scaleFactor, scaleFactor⟩
          | none => st.nodes
        -- lines 118-127: position and rotate
        let nodes2 :=
          match (st.nodes rootMesh).parent with
          | some p =>
            if (st.nodes p).hasPosition then
              let a := setPosition nodes1 p position
              let b := if (st.nodes p).hasRotation then setRotation a p rotation else a
              setPosition b rootMesh Vec3.zero
            else
              setRotation (setPosition nodes1 rootMesh position) rootMesh rotation
          | none => setRotation (setPosition nodes1 rootMesh position) rootMesh rotation
        ({ st with nodes := nodes2, loadedAssets := st.loadedAssets ++ [name] },
         some rootMesh)
    else
      (st, none)

/-- One entry of the `Promise.all` batch (lines 150-166). -/
structure LoadRequest where
  result : Except Unit (List Nat)
  position : Vec3
  rotation : Vec3
  name : String
  targetSize : ℚ

/-- Whether a request reaches the success path of `loadAsset`. -/
def succeeds (ns : Nat → Node) (r : LoadRequest) : Bool :=
  match r.result with
  | Except.error _ => false
  | Except.ok resultMeshes =>
    decide (resultMeshes.length > 0) &&
      !decide ((resultMeshes.filter fun i => (ns i).isMesh).length = 0)

/-- Run the post-`await` continuations of the batch in completion order. -/
def runLoads (st : SceneState) (completed : List LoadRequest) : SceneState :=
  completed.foldl
    (fun s r =>
      (loadAsset s r.result r.position r.rotation r.name r.targetSize).1) st

/-- `Promise.all([...]).then(...)`: the flag clears after all tasks settle. -/
def runBatch (st : SceneState) (completed : List LoadRequest) : ComponentState :=
  { scene := runLoads st completed, loading := false }

/-- The local transform Babylon's `setParent` computes to preserve the node's
world transform when re-parenting.  That computation lives in the engine
(out of scope); the claims proved below hold for every value of it, because
the code overwrites the bow's position and rotation right after `setParent`. -/
structure SetParentRecompute where
  position : Vec3
  rotation : Vec3
  scaling : JVec3

/-- `bowRef.setParent(camera)` (line 180): re-parent node `i` to the camera;
the engine rewrites the local transform to `rc` to preserve the world one. -/
def setParentToCamera (ns : Nat → Node) (i cameraIdx : Nat)
    (rc : SetParentRecompute) : Nat → Node :=
  fun j =>
    if j = i then
      { ns i with parent := some cameraIdx, position := rc.position,
                  rotation := rc.rotation, scaling := rc.scaling }
    else ns j

/-- Lines 150-195 of `src/app/babylon/ArcheryGameScene.tsx`: the two
`loadAsset` calls joined by `Promise.all`, followed by the `.then` handler.
`mathPI` is the (rational model of the) value of `Math.PI`.  `bowFirst` says
which of the two awaited imports resolves first; `Promise.all` hands the
handler the results in request order regardless.  The handler clears the
loading flag and, when `results[0]` is a mesh, re-parents it to the camera and
overwrites its position with `(0, -0.2, 1.2)` and its rotation with
`(0, Math.PI/12, Math.PI/2)`. -/
def runScene (st0 : SceneState) (cameraIdx : Nat) (mathPI : ℚ)
    (bowResult targetResult : Except Unit (List Nat))
    (bowFirst : Bool) (rc : SetParentRecompute) :
    ComponentState × Option Nat × Option Nat :=
  let loadBow := fun s =>
    loadAsset s bowResult ⟨0, 0, 0⟩ ⟨0, 0, 0⟩ "Recurve Bow" (4/5)
  let loadTarget := fun s =>
    loadAsset s targetResult ⟨0, 3/2, 12⟩ ⟨0, mathPI/2, 0⟩ "Target" 4
  let step :=
    if bowFirst then
      let sb := loadBow st0
      let stt := loadTarget sb.1
      (stt.1, sb.2, stt.2)
    else
      let stt := loadTarget st0
      let sb := loadBow stt.1
      (sb.1, sb.2, stt.2)
  let st1 := step.1
  let bowRef := step.2.1
  let targetRef := step.2.2
  -- `.then((results) => { setLoading(false); ... })` (lines 167-195)
  let st2 :=
    match bowRef with
    | some b =>
      if (st1.nodes b).isMesh then
        let n1 := setParentToCamera st1.nodes b cameraIdx rc
        let n2 := setPosition n1 b ⟨0, -(1/5), 6/5⟩
        let n3 := setRotation n2 b ⟨0, mathPI/12, mathPI/2⟩
        { st1 with nodes := n3 }
      else st1
    | none => st1
  ({ scene := st2, loading := false }, bowRef, targetRef)

end ArcheryGameScene

/-- `v` is the minimum of the non-empty list `s`: it belongs to `s` and is a
lower bound.  This is the claim-side reading of "component-wise minimum". -/
def IsMinOf (v : ℚ) (s : List ℚ) : Prop := v ∈ s ∧ ∀ x ∈ s, v ≤ x

/-- `v` is the maximum of the non-empty list `s`. -/
def IsMaxOf (v : ℚ) (s : List ℚ) : Prop := v ∈ s ∧ ∀ x ∈ s, x ≤ v

/-! Concrete fixtures used by the witness and counterexample theorems. -/

/-- A node with every field at a neutral value. -/
def defaultNode : Node :=
  { isMesh := false, parent := none, bbMin := ⟨0, 0, 0⟩, bbMax := ⟨0, 0, 0⟩,
    scaling := ⟨JsNum.fin 1, JsNum.fin 1, JsNum.fin 1⟩,
    position := ⟨0, 0, 0⟩, rotation := ⟨0, 0, 0⟩,
    hasScaling := false, hasPosition := false, hasRotation := false }

/-- A parentless mesh whose bounding box is `(0,0,0)-(1,2,1)`. -/
def soloMesh : Node :=
  { defaultNode with
    isMesh := true, bbMin := ⟨0, 0, 0⟩, bbMax := ⟨1, 2, 1⟩,
    position := ⟨9, 9, 9⟩,
    hasScaling := true, hasPosition := true, hasRotation := true }

/-- A mesh parented to node 1, bounding box `(0,0,0)-(1,2,1)`. -/
def childMesh : Node := { soloMesh with parent := some 1 }

/-- A parent node that exposes a `scaling` property but no `position` or
`rotation` property (as a camera-like node does). -/
def scaleOnlyParent : Node :=
  { defaultNode with position := ⟨7, 7, 7⟩, hasScaling := true }

/-- A parentless mesh with a degenerate (single-point) bounding box. -/
def degenerateMesh : Node :=
  { soloMesh with bbMin := ⟨1, 1, 1⟩, bbMax := ⟨1, 1, 1⟩ }

/-- A scene holding one parentless mesh at index 0. -/
def soloScene : SceneState :=
  { nodes := fun i => if i = 0 then soloMesh else defaultNode,
    loadedAssets := [], log := [] }

/-- A scene holding a mesh (index 0) whose parent (index 1) has a `scaling`
property but no `position` property. -/
def parentedScene : SceneState :=
  { nodes := fun i => if i = 0 then childMesh
      else if i = 1 then scaleOnlyParent else defaultNode,
    loadedAssets := [], log := [] }

/-- A scene holding one parentless mesh with a degenerate bounding box. -/
def degenerateScene : SceneState :=
  { nodes := fun i => if i = 0 then degenerateMesh else defaultNode,
    loadedAssets := [], log := [] }

/-! Helper lemmas about the min/max folds inside `getBoundingBox`. -/

lemma foldl_minmax_split (l : List Node) (a b : Vec3)
    (hm : ∀ m ∈ l, m.isMesh = true) :
    l.foldl
      (fun (acc : Vec3 × Vec3) mesh =>
        if mesh.isMesh then
          (Vec3.minimize acc.1 mesh.bbMin, Vec3.maximize acc.2 mesh.bbMax)
        else acc)
      (a, b)
    = (l.foldl (fun acc mesh => Vec3.minimize acc mesh.bbMin) a,
       l.foldl (fun acc mesh => Vec3.maximize acc mesh.bbMax) b) := by
  induction l generalizing a b with
  | nil => rfl
  | cons m tl ih =>
    have hmm : m.isMesh = true := hm m (List.mem_cons_self _ _)
    simp only [List.foldl_cons, hmm, if_true]
    exact ih _ _ fun x hx => hm x (List.mem_cons_of_mem _ hx)

lemma foldl_minimize_components (l : List Node) (a : Vec3) :
    l.foldl (fun acc mesh => Vec3.minimize acc mesh.bbMin) a
    = ⟨l.foldl (fun q mesh => min q mesh.bbMin.x) a.x,
       l.foldl (fun q mesh => min q mesh.bbMin.y) a.y,
       l.foldl (fun q mesh => min q mesh.bbMin.z) a.z⟩ := by
  induction l generalizing a with
  | nil => rfl
  | cons m tl ih =>
    rw [List.foldl_cons, ih]
    simp [Vec3.minimize]

lemma foldl_maximize_components (l : List Node) (a : Vec3) :
    l.foldl (fun acc mesh => Vec3.maximize acc mesh.bbMax) a
    = ⟨l.foldl (fun q mesh => max q mesh.bbMax.x) a.x,
       l.foldl (fun q mesh => max q mesh.bbMax.y) a.y,
       l.foldl (fun q mesh => max q mesh.bbMax.z) a.z⟩ := by
  induction l generalizing a with
  | nil => rfl
  | cons m tl ih =>
    rw [List.foldl_cons, ih]
    simp [Vec3.maximize]

lemma foldl_min_mem (s : List ℚ) (a : ℚ) : s.foldl min a ∈ a :: s := by
  induction s generalizing a with
  | nil => simp
  | cons b tl ih =>
    simp only [List.foldl_cons]
    rcases List.mem_cons.1 (ih (min a b)) with h | h
    · rcases min_choice a b with hc | hc <;> rw [h, hc]
      · exact List.mem_cons_self _ _
      · exact List.mem_cons_of_mem _ (List.mem_cons_self _ _)
    · exact List.mem_cons_of_mem _ (List.mem_cons_of_mem _ h)

lemma foldl_min_le_init (s : List ℚ) (a : ℚ) : s.foldl min a ≤ a := by
  induction s generalizing a with
  | nil => simp
  | cons b tl ih => exact le_trans (ih (min a b)) (min_le_left a b)

lemma foldl_min_le_mem (s : List ℚ) (a : ℚ) : ∀ x ∈ s, s.foldl min a ≤ x := by
  induction s generalizing a with
  | nil => simp
  | cons b tl ih =>
    intro x hx
    rcases List.mem_cons.1 hx with h | h
    · subst h
      exact le_trans (foldl_min_le_init tl (min a x)) (min_le_right a x)
    · exact ih (min a b) x h

lemma foldl_max_mem (s : List ℚ) (a : ℚ) : s.foldl max a ∈ a :: s := by
  induction s generalizing a with
  | nil => simp
  | cons b tl ih =>
    simp only [List.foldl_cons]
    rcases List.mem_cons.1 (ih (max a b)) with h | h
    · rcases max_choice a b with hc | hc <;> rw [h, hc]
      · exact List.mem_cons_self _ _
      · exact List.mem_cons_of_mem _ (List.mem_cons_self _ _)
    · exact List.mem_cons_of_mem _ (List.mem_cons_of_mem _ h)

lemma foldl_max_ge_init (s : List ℚ) (a : ℚ) : a ≤ s.foldl max a := by
  induction s generalizing a with
  | nil => simp
  | cons b tl ih => exact le_trans (le_max_left a b) (ih (max a b))

lemma foldl_max_ge_mem (s : List ℚ) (a : ℚ) : ∀ x ∈ s, x ≤ s.foldl max a := by
  induction s generalizing a with
  | nil => simp
  | cons b tl ih =>
    intro x hx
    rcases List.mem_cons.1 hx with h | h
    · subst h
      exact le_trans (le_max_right a x) (foldl_max_ge_init tl (max a x))
    · exact ih (max a b) x h

/-! Invariant lemmas: `loadAsset` never changes the `isMesh` and `parent`
fields of any node, and appends to `loadedAssets` exactly on success. -/

namespace AssetTestScene

lemma loadAsset_nodes_isMesh (st : SceneState) (res : Except Unit (List Nat))
    (pos : Vec3) (name : String) (ts : ℚ) (i : Nat) :
    ((loadAsset st res pos name ts).1.nodes i).isMesh = (st.nodes i).isMesh := by
  rcases res with e | rm
  · rfl
  · simp only [loadAsset]
    repeat' split
    all_goals simp

lemma loadAsset_nodes_parent (st : SceneState) (res : Except Unit (List Nat))
    (pos : Vec3) (name : String) (ts : ℚ) (i : Nat) :
    ((loadAsset st res pos name ts).1.nodes i).parent = (st.nodes i).parent := by
  rcases res with e | rm
  · rfl
  · simp only [loadAsset]
    repeat' split
    all_goals simp

lemma loadAsset_fst_loadedAssets (st : SceneState) (res : Except Unit (List Nat))
    (pos : Vec3) (name : String) (ts : ℚ) :
    ((loadAsset st res pos name ts).1).loadedAssets
      = st.loadedAssets ++
        (if succeeds st.nodes ⟨res, pos, name, ts⟩ then [name] else []) := by
  rcases res with e | rm
  · simp [loadAsset, succeeds]
  · simp only [loadAsset, succeeds]
    repeat' split
    all_goals simp_all

lemma succeeds_congr (ns ns' : Nat → Node)
    (h : ∀ i, (ns' i).isMesh = (ns i).isMesh) (r : LoadRequest) :
    succeeds ns' r = succeeds ns r := by
  rcases r with ⟨res, pos, name, ts⟩
  rcases res with e | rm
  · rfl
  · have hf : (rm.filter fun i => (ns' i).isMesh)
        = rm.filter fun i => (ns i).isMesh :=
      List.filter_congr fun x _ => h x
    simp [succeeds, hf]

lemma runLoads_loadedAssets (completed : List LoadRequest) (st0 : SceneState) :
    (runLoads st0 completed).loadedAssets
      = st0.loadedAssets ++ completed.filterMap
          (fun r => if succeeds st0.nodes r then some r.name else none) := by
  induction completed generalizing st0 with
  | nil => simp [runLoads]
  | cons r tl ih =>
    have hstep : runLoads st0 (r :: tl)
        = runLoads ((loadAsset st0 r.result r.position r.name r.targetSize).1) tl := by
      simp [runLoads]
    rw [hstep, ih]
    have hm : ∀ i,
        (((loadAsset st0 r.result r.position r.name r.targetSize).1).nodes i).isMesh
          = (st0.nodes i).isMesh :=
      fun i => loadAsset_nodes_isMesh st0 r.result r.position r.name r.targetSize i
    have hfn : (fun r' : LoadRequest =>
          if succeeds ((loadAsset st0 r.result r.position r.name r.targetSize).1).nodes r'
          then some r'.name else none)
        = fun r' : LoadRequest =>
            if succeeds st0.nodes r' then some r'.name else none := by
      funext r'
      rw [succeeds_congr st0.nodes _ hm r']
    rw [hfn, loadAsset_fst_loadedAssets, List.append_assoc]
    congr 1
    rcases r with ⟨res, pos, name, ts⟩
    by_cases hs : succeeds st0.nodes ⟨res, pos, name, ts⟩ = true
    · simp [List.filterMap_cons, hs]
    · simp only [Bool.not_eq_true] at hs
      simp [List.filterMap_cons, hs]

end AssetTestScene

namespace ArcheryGameScene

lemma game_loadAsset_nodes_isMesh (st : SceneState) (res : Except Unit (List Nat))
    (pos rot : Vec3) (name : String) (ts : ℚ) (i : Nat) :
    ((loadAsset st res pos rot name ts).1.nodes i).isMesh
      = (st.nodes i).isMesh := by
  rcases res with e | rm
  · rfl
  · simp only [loadAsset]
    repeat' split
    all_goals simp

lemma game_loadAsset_nodes_parent (st : SceneState) (res : Except Unit (List Nat))
    (pos rot : Vec3) (name : String) (ts : ℚ) (i : Nat) :
    ((loadAsset st res pos rot name ts).1.nodes i).parent
      = (st.nodes i).parent := by
  rcases res with e | rm
  · rfl
  · simp only [loadAsset]
    repeat' split
    all_goals simp

lemma game_loadAsset_fst_loadedAssets (st : SceneState) (res : Except Unit (List Nat))
    (pos rot : Vec3) (name : String) (ts : ℚ) :
    ((loadAsset st res pos rot name ts).1).loadedAssets
      = st.loadedAssets ++
        (if succeeds st.nodes ⟨res, pos, rot, name, ts⟩ then [name] else []) := by
  rcases res with e | rm
  · simp [loadAsset, succeeds]
  · simp only [loadAsset, succeeds]
    repeat' split
    all_goals simp_all

lemma game_succeeds_congr (ns ns' : Nat → Node)
    (h : ∀ i, (ns' i).isMesh = (ns i).isMesh) (r : LoadRequest) :
    succeeds ns' r = succeeds ns r := by
  rcases r with ⟨res, pos, rot, name, ts⟩
  rcases res with e | rm
  · rfl
  · have hf : (rm.filter fun i => (ns' i).isMesh)
        = rm.filter fun i => (ns i).isMesh :=
      List.filter_congr fun x _ => h x
    simp [succeeds, hf]

lemma game_runLoads_loadedAssets (completed : List LoadRequest) (st0 : SceneState) :
    (runLoads st0 completed).loadedAssets
      = st0.loadedAssets ++ completed.filterMap
          (fun r => if succeeds st0.nodes r then some r.name else none) := by
  induction completed generalizing st0 with
  | nil => simp [runLoads]
  | cons r tl ih =>
    have hstep : runLoads st0 (r :: tl)
        = runLoads
            ((loadAsset st0 r.result r.position r.rotation r.name r.targetSize).1)
            tl := by
      simp [runLoads]
    rw [hstep, ih]
    have hm : ∀ i,
        (((loadAsset st0 r.result r.position r.rotation r.name
            r.targetSize).1).nodes i).isMesh = (st0.nodes i).isMesh :=
      fun i => game_loadAsset_nodes_isMesh st0 r.result r.position r.rotation r.name
        r.targetSize i
    have hfn : (fun r' : LoadRequest =>
          if succeeds
              ((loadAsset st0 r.result r.position r.rotation r.name
                r.targetSize).1).nodes r'
          then some r'.name else none)
        = fun r' : LoadRequest =>
            if succeeds st0.nodes r' then some r'.name else none := by
      funext r'
      rw [game_succeeds_congr st0.nodes _ hm r']
    rw [hfn, game_loadAsset_fst_loadedAssets, List.append_assoc]
    congr 1
    rcases r with ⟨res, pos, rot, name, ts⟩
    by_cases hs : succeeds st0.nodes ⟨res, pos, rot, name, ts⟩ = true
    · simp [List.filterMap_cons, hs]
    · simp only [Bool.not_eq_true] at hs
      simp [List.filterMap_cons, hs]

lemma find?_noParent_congr (ns ns' : Nat → Node)
    (h : ∀ i, (ns' i).parent = (ns i).parent) (l : List Nat) :
    (l.find? fun i => (ns' i).parent.isNone)
      = l.find? fun i => (ns i).parent.isNone := by
  induction l with
  | nil => rfl
  | cons a tl ih => simp only [List.find?_cons, h a, ih]

lemma rootMeshOf_congr (ns ns' : Nat → Node)
    (h : ∀ i, (ns' i).parent = (ns i).parent) (l : List Nat) :
    rootMeshOf ns' l = rootMeshOf ns l := by
  unfold rootMeshOf
  rw [find?_noParent_congr ns ns' h l]

lemma loadAsset_snd_ok (st : SceneState) (rm : List Nat)
    (pos rot : Vec3) (name : String) (ts : ℚ)
    (h : (rm.filter fun i => (st.nodes i).isMesh) ≠ []) :
    (loadAsset st (Except.ok rm) pos rot name ts).2
      = some (rootMeshOf st.nodes rm) := by
  have hlen : rm.length > 0 := by
    rcases rm with _ | ⟨a, tl⟩
    · simp at h
    · simp
  have hfl : ¬((rm.filter fun i => (st.nodes i).isMesh).length = 0) := by
    simpa [List.length_eq_zero] using h
  simp only [loadAsset]
  simp [hlen, hfl]

end ArcheryGameScene

lemma isMinOf_foldl (s : List ℚ) (a : ℚ) (ha : a ∈ s) :
    IsMinOf (s.foldl min a) s := by
  constructor
  · rcases List.mem_cons.1 (foldl_min_mem s a) with h | h
    · rw [h]; exact ha
    · exact h
  · exact foldl_min_le_mem s a

lemma isMaxOf_foldl (s : List ℚ) (a : ℚ) (ha : a ∈ s) :
    IsMaxOf (s.foldl max a) s := by
  constructor
  · rcases List.mem_cons.1 (foldl_max_mem s a) with h | h
    · rw [h]; exact ha
    · exact h
  · exact foldl_max_ge_mem s a

/-- The two files' `getBoundingBox` helpers are the same function. -/
lemma getBoundingBox_eq :
    AssetTestScene.getBoundingBox = ArcheryGameScene.getBoundingBox := rfl

/-- The two files' `currentSize` computations are the same function. -/
lemma currentSizeOf_eq :
    AssetTestScene.currentSizeOf = ArcheryGameScene.currentSizeOf := rfl

/-- The two files' `scaleFactor` computations are the same function. -/
lemma scaleFactorOf_eq :
    AssetTestScene.scaleFactorOf = ArcheryGameScene.scaleFactorOf := rfl

/-- Full characterization of `getBoundingBox` on a non-empty list of meshes. -/
lemma getBoundingBox_spec (l : List Node) (h : l ≠ [])
    (hm : ∀ m ∈ l, m.isMesh = true) :
    ∃ r, AssetTestScene.getBoundingBox l = some r
      ∧ IsMinOf r.min.x (l.map fun m => m.bbMin.x)
      ∧ IsMinOf r.min.y (l.map fun m => m.bbMin.y)
      ∧ IsMinOf r.min.z (l.map fun m => m.bbMin.z)
      ∧ IsMaxOf r.max.x (l.map fun m => m.bbMax.x)
      ∧ IsMaxOf r.max.y (l.map fun m => m.bbMax.y)
      ∧ IsMaxOf r.max.z (l.map fun m => m.bbMax.z)
      ∧ r.size = Vec3.subtract r.max r.min := by
  obtain ⟨m0, tl, rfl⟩ := List.exists_cons_of_ne_nil h
  have hfold := foldl_minmax_split (m0 :: tl) m0.bbMin m0.bbMax hm
  have hbb : AssetTestScene.getBoundingBox (m0 :: tl)
      = some { min := (m0 :: tl).foldl
                 (fun acc mesh => Vec3.minimize acc mesh.bbMin) m0.bbMin,
               max := (m0 :: tl).foldl
                 (fun acc mesh => Vec3.maximize acc mesh.bbMax) m0.bbMax,
               size := Vec3.subtract
                 ((m0 :: tl).foldl
                   (fun acc mesh => Vec3.maximize acc mesh.bbMax) m0.bbMax)
                 ((m0 :: tl).foldl
                   (fun acc mesh => Vec3.minimize acc mesh.bbMin) m0.bbMin) } := by
    simp only [AssetTestScene.getBoundingBox]
    rw [hfold]
  refine ⟨_, hbb, ?_, ?_, ?_, ?_, ?_, ?_, rfl⟩
  all_goals
    simp only [foldl_minimize_components, foldl_maximize_components]
  · have hconv : (m0 :: tl).foldl (fun q mesh => min q mesh.bbMin.x) m0.bbMin.x
        = ((m0 :: tl).map fun m => m.bbMin.x).foldl min m0.bbMin.x := by
      rw [List.foldl_map]
    rw [hconv]
    exact isMinOf_foldl _ _ (by simp)
  · have hconv : (m0 :: tl).foldl (fun q mesh => min q mesh.bbMin.y) m0.bbMin.y
        = ((m0 :: tl).map fun m => m.bbMin.y).foldl min m0.bbMin.y := by
      rw [List.foldl_map]
    rw [hconv]
    exact isMinOf_foldl _ _ (by simp)
  · have hconv : (m0 :: tl).foldl (fun q mesh => min q mesh.bbMin.z) m0.bbMin.z
        = ((m0 :: tl).map fun m => m.bbMin.z).foldl min m0.bbMin.z := by
      rw [List.foldl_map]
    rw [hconv]
    exact isMinOf_foldl _ _ (by simp)
  · have hconv : (m0 :: tl).foldl (fun q mesh => max q mesh.bbMax.x) m0.bbMax.x
        = ((m0 :: tl).map fun m => m.bbMax.x).foldl max m0.bbMax.x := by
      rw [List.foldl_map]
    rw [hconv]
    exact isMaxOf_foldl _ _ (by simp)
  · have hconv : (m0 :: tl).foldl (fun q mesh => max q mesh.bbMax.y) m0.bbMax.y
        = ((m0 :: tl).map fun m => m.bbMax.y).foldl max m0.bbMax.y := by
      rw [List.foldl_map]
    rw [hconv]
    exact isMaxOf_foldl _ _ (by simp)
  · have hconv : (m0 :: tl).foldl (fun q mesh => max q mesh.bbMax.z) m0.bbMax.z
        = ((m0 :: tl).map fun m => m.bbMax.z).foldl max m0.bbMax.z := by
      rw [List.foldl_map]
    rw [hconv]
    exact isMaxOf_foldl _ _ (by simp)

lemma find?_first_noParent (ns : Nat → Node) (l1 l2 : List Nat) (i : Nat)
    (h1 : ∀ j ∈ l1, (ns j).parent ≠ none) (hi : (ns i).parent = none) :
    ((l1 ++ i :: l2).find? fun j => (ns j).parent.isNone) = some i := by
  induction l1 with
  | nil => simp [List.find?_cons, hi]
  | cons a tl ih =>
    have ha : ((ns a).parent.isNone) = false := by
      cases hpa : (ns a).parent with
      | none => exact absurd hpa (h1 a (List.mem_cons_self _ _))
      | some v => rfl
    simp only [List.cons_append, List.find?_cons, ha]
    exact ih fun j hj => h1 j (List.mem_cons_of_mem _ hj)

lemma find?_noParent_none (ns : Nat → Node) (l : List Nat)
    (h : ∀ j ∈ l, (ns j).parent ≠ none) :
    (l.find? fun j => (ns j).parent.isNone) = none := by
  induction l with
  | nil => rfl
  | cons a tl ih =>
    have ha : ((ns a).parent.isNone) = false := by
      cases hpa : (ns a).parent with
      | none => exact absurd hpa (h a (List.mem_cons_self _ _))
      | some v => rfl
    simp only [List.find?_cons, ha]
    exact ih fun j hj => h j (List.mem_cons_of_mem _ hj)

/-- C2: for every non-empty list of mesh nodes, `getBoundingBox` (in both
scene files) returns `min` equal to the component-wise minimum and `max`
equal to the component-wise maximum over all the nodes' world bounding
boxes, and `size = max - min` component-wise; for the empty list it returns
no box. -/
theorem c2_getBoundingBox_componentwise (l : List Node) (h : l ≠ [])
    (hm : ∀ m ∈ l, m.isMesh = true) :
    (∃ r, AssetTestScene.getBoundingBox l = some r
      ∧ ArcheryGameScene.getBoundingBox l = some r
      ∧ IsMinOf r.min.x (l.map fun m => m.bbMin.x)
      ∧ IsMinOf r.min.y (l.map fun m => m.bbMin.y)
      ∧ IsMinOf r.min.z (l.map fun m => m.bbMin.z)
      ∧ IsMaxOf r.max.x (l.map fun m => m.bbMax.x)
      ∧ IsMaxOf r.max.y (l.map fun m => m.bbMax.y)
      ∧ IsMaxOf r.max.z (l.map fun m => m.bbMax.z)
      ∧ r.size = Vec3.subtract r.max r.min)
    ∧ AssetTestScene.getBoundingBox ([] : List Node) = none
    ∧ ArcheryGameScene.getBoundingBox ([] : List Node) = none := by
  refine ⟨?_, rfl, rfl⟩
  obtain ⟨r, h1, h2, h3, h4, h5, h6, h7, h8⟩ := getBoundingBox_spec l h hm
  refine ⟨r, h1, ?_, h2, h3, h4, h5, h6, h7, h8⟩
  rw [← getBoundingBox_eq]
  exact h1

/-- Witness for C2 at the concrete two-mesh list
`[soloMesh, degenerateMesh]`. -/
theorem c2_getBoundingBox_componentwise_witness :
    (∃ r, AssetTestScene.getBoundingBox [soloMesh, degenerateMesh] = some r
      ∧ ArcheryGameScene.getBoundingBox [soloMesh, degenerateMesh] = some r
      ∧ IsMinOf r.min.x ([soloMesh, degenerateMesh].map fun m => m.bbMin.x)
      ∧ IsMinOf r.min.y ([soloMesh, degenerateMesh].map fun m => m.bbMin.y)
      ∧ IsMinOf r.min.z ([soloMesh, degenerateMesh].map fun m => m.bbMin.z)
      ∧ IsMaxOf r.max.x ([soloMesh, degenerateMesh].map fun m => m.bbMax.x)
      ∧ IsMaxOf r.max.y ([soloMesh, degenerateMesh].map fun m => m.bbMax.y)
      ∧ IsMaxOf r.max.z ([soloMesh, degenerateMesh].map fun m => m.bbMax.z)
      ∧ r.size = Vec3.subtract r.max r.min)
    ∧ AssetTestScene.getBoundingBox ([] : List Node) = none
    ∧ ArcheryGameScene.getBoundingBox ([] : List Node) = none :=
  c2_getBoundingBox_componentwise [soloMesh, degenerateMesh]
    (by decide) (by decide)

/-- C9: the bounding-box computation and scale-factor derivation in the two
scene files are extensionally equal: `getBoundingBox` agrees on every mesh
list, and for the same bounding box and target size both `loadAsset`
implementations compute the same `currentSize` and `scaleFactor`. -/
theorem c9_scene_helpers_equivalent :
    (∀ l : List Node,
        AssetTestScene.getBoundingBox l = ArcheryGameScene.getBoundingBox l)
    ∧ (∀ bb : BoundingBoxResult,
        AssetTestScene.currentSizeOf bb = ArcheryGameScene.currentSizeOf bb)
    ∧ (∀ (ts : ℚ) (bb : BoundingBoxResult),
        AssetTestScene.scaleFactorOf ts bb
          = ArcheryGameScene.scaleFactorOf ts bb) :=
  ⟨fun _ => rfl, fun _ => rfl, fun _ _ => rfl⟩

/-- C3: in both scenes the chosen root node is the first node of
`result.meshes` that has no parent; if every node has a parent, it is the
first node in input order. -/
theorem c3_root_node_selection (ns : Nat → Node) :
    (∀ (l1 l2 : List Nat) (i : Nat),
        (∀ j ∈ l1, (ns j).parent ≠ none) → (ns i).parent = none →
        AssetTestScene.rootMeshOf ns (l1 ++ i :: l2) = i
        ∧ ArcheryGameScene.rootMeshOf ns (l1 ++ i :: l2) = i)
    ∧ (∀ (k : Nat) (tl : List Nat),
        (∀ j ∈ k :: tl, (ns j).parent ≠ none) →
        AssetTestScene.rootMeshOf ns (k :: tl) = k
        ∧ ArcheryGameScene.rootMeshOf ns (k :: tl) = k) := by
  constructor
  · intro l1 l2 i h1 hi
    have hfind := find?_first_noParent ns l1 l2 i h1 hi
    constructor
    · unfold AssetTestScene.rootMeshOf
      rw [hfind]
      rfl
    · unfold ArcheryGameScene.rootMeshOf
      rw [hfind]
      rfl
  · intro k tl h
    have hfind := find?_noParent_none ns (k :: tl) h
    constructor
    · unfold AssetTestScene.rootMeshOf
      rw [hfind]
      rfl
    · unfold ArcheryGameScene.rootMeshOf
      rw [hfind]
      rfl

/-- Witness for C3: in `parentedScene`, node 0 has a parent and node 1 does
not, so `[0, 1]` selects node 1; in the all-parented singleton `[0]` the
fallback selects node 0. -/
theorem c3_root_node_selection_witness :
    (AssetTestScene.rootMeshOf parentedScene.nodes ([0] ++ 1 :: []) = 1
      ∧ ArcheryGameScene.rootMeshOf parentedScene.nodes ([0] ++ 1 :: []) = 1)
    ∧ (AssetTestScene.rootMeshOf parentedScene.nodes (0 :: []) = 0
      ∧ ArcheryGameScene.rootMeshOf parentedScene.nodes (0 :: []) = 0) :=
  ⟨(c3_root_node_selection parentedScene.nodes).1 [0] [] 1
      (by decide) (by decide),
   (c3_root_node_selection parentedScene.nodes).2 0 [] (by decide)⟩

/-- The two files' root-mesh selections are the same function. -/
lemma rootMeshOf_eq :
    AssetTestScene.rootMeshOf = ArcheryGameScene.rootMeshOf := rfl

/-- C1: for every loaded asset with a non-degenerate bounding box, the
applied scale factor equals `targetSize / currentSize`, where `currentSize`
is the largest absolute component of the combined box's size, and the same
factor is assigned to all three axes of the chosen node's scaling, in both
scene files. -/
theorem c1_uniform_scale_factor (st : SceneState) (resultMeshes : List Nat)
    (pos rot : Vec3) (name : String) (ts : ℚ) (bb : BoundingBoxResult)
    (root target : Nat)
    (hmesh : resultMeshes.filter (fun i => (st.nodes i).isMesh) ≠ [])
    (hbb : AssetTestScene.getBoundingBox
        ((resultMeshes.filter fun i => (st.nodes i).isMesh).map st.nodes)
      = some bb)
    (hcs : AssetTestScene.currentSizeOf bb ≠ 0)
    (hroot : root = AssetTestScene.rootMeshOf st.nodes resultMeshes)
    (htarget : target = (match (st.nodes root).parent with
        | some p => if (st.nodes p).hasScaling then p else root
        | none => root)) :
    (((AssetTestScene.loadAsset st (Except.ok resultMeshes) pos name
          ts).1.nodes target).scaling
      = ⟨JsNum.fin (ts / AssetTestScene.currentSizeOf bb),
         JsNum.fin (ts / AssetTestScene.currentSizeOf bb),
         JsNum.fin (ts / AssetTestScene.currentSizeOf bb)⟩)
    ∧ (((ArcheryGameScene.loadAsset st (Except.ok resultMeshes) pos rot name
          ts).1.nodes target).scaling
      = ⟨JsNum.fin (ts / AssetTestScene.currentSizeOf bb),
         JsNum.fin (ts / AssetTestScene.currentSizeOf bb),
         JsNum.fin (ts / AssetTestScene.currentSizeOf bb)⟩) := by
  have hlen : resultMeshes.length > 0 := by
    rcases resultMeshes with _ | ⟨a, l⟩
    · simp at hmesh
    · simp
  have hfl : ¬((resultMeshes.filter fun i => (st.nodes i).isMesh).length = 0) := by
    simpa [List.length_eq_zero] using hmesh
  have hsf : AssetTestScene.scaleFactorOf ts bb
      = JsNum.fin (ts / AssetTestScene.currentSizeOf bb) := by
    unfold AssetTestScene.scaleFactorOf jsDiv
    rw [if_neg hcs]
  have hbbG : ArcheryGameScene.getBoundingBox
      ((resultMeshes.filter fun i => (st.nodes i).isMesh).map st.nodes)
      = some bb := by
    rw [← getBoundingBox_eq]; exact hbb
  have hsfG : ArcheryGameScene.scaleFactorOf ts bb
      = JsNum.fin (ts / AssetTestScene.currentSizeOf bb) := by
    rw [← scaleFactorOf_eq]; exact hsf
  have hrootG : root = ArcheryGameScene.rootMeshOf st.nodes resultMeshes := by
    rw [← rootMeshOf_eq]; exact hroot
  constructor
  · simp only [AssetTestScene.loadAsset, hbb]
    rw [if_pos hlen, if_neg hfl, ← hroot]
    rcases hp : (st.nodes root).parent with _ | p
    · rw [hp] at htarget
      have ht2 : target = root := htarget
      subst ht2
      simp only [hp]
      simp [hsf]
    · rw [hp] at htarget
      have ht2 : target
          = if (st.nodes p).hasScaling = true then p else root := htarget
      by_cases hs : (st.nodes p).hasScaling = true
      · rw [if_pos hs] at ht2
        subst ht2
        clear htarget
        simp only [hp]
        repeat' split
        all_goals simp_all [hsf]
      · rw [if_neg hs] at ht2
        subst ht2
        clear htarget
        simp only [hp]
        repeat' split
        all_goals simp_all [hsf]
  · simp only [ArcheryGameScene.loadAsset, hbbG]
    rw [if_pos hlen, if_neg hfl, ← hrootG]
    rcases hp : (st.nodes root).parent with _ | p
    · rw [hp] at htarget
      have ht2 : target = root := htarget
      subst ht2
      simp only [hp]
      simp [hsfG]
    · rw [hp] at htarget
      have ht2 : target
          = if (st.nodes p).hasScaling = true then p else root := htarget
      by_cases hs : (st.nodes p).hasScaling = true
      · rw [if_pos hs] at ht2
        subst ht2
        clear htarget
        simp only [hp]
        repeat' split
        all_goals simp_all [hsfG]
      · rw [if_neg hs] at ht2
        subst ht2
        clear htarget
        simp only [hp]
        repeat' split
        all_goals simp_all [hsfG]

/-- Witness for C1: loading the single parentless mesh of `soloScene`
(bounding box size `(1,2,1)`, so `currentSize = 2`) with `targetSize = 5`
scales the root uniformly by `5 / 2` in both scenes. -/
theorem c1_uniform_scale_factor_witness :
    (((AssetTestScene.loadAsset soloScene (Except.ok [0]) ⟨1, 1, 1⟩ "Bow"
          5).1.nodes 0).scaling
      = ⟨JsNum.fin (5 / AssetTestScene.currentSizeOf
            ⟨⟨0, 0, 0⟩, ⟨1, 2, 1⟩, ⟨1, 2, 1⟩⟩),
         JsNum.fin (5 / AssetTestScene.currentSizeOf
            ⟨⟨0, 0, 0⟩, ⟨1, 2, 1⟩, ⟨1, 2, 1⟩⟩),
         JsNum.fin (5 / AssetTestScene.currentSizeOf
            ⟨⟨0, 0, 0⟩, ⟨1, 2, 1⟩, ⟨1, 2, 1⟩⟩)⟩)
    ∧ (((ArcheryGameScene.loadAsset soloScene (Except.ok [0]) ⟨1, 1, 1⟩
          ⟨0, 0, 0⟩ "Bow" 5).1.nodes 0).scaling
      = ⟨JsNum.fin (5 / AssetTestScene.currentSizeOf
            ⟨⟨0, 0, 0⟩, ⟨1, 2, 1⟩, ⟨1, 2, 1⟩⟩),
         JsNum.fin (5 / AssetTestScene.currentSizeOf
            ⟨⟨0, 0, 0⟩, ⟨1, 2, 1⟩, ⟨1, 2, 1⟩⟩),
         JsNum.fin (5 / AssetTestScene.currentSizeOf
            ⟨⟨0, 0, 0⟩, ⟨1, 2, 1⟩, ⟨1, 2, 1⟩⟩)⟩) :=
  c1_uniform_scale_factor soloScene [0] ⟨1, 1, 1⟩ ⟨0, 0, 0⟩ "Bow" 5
    ⟨⟨0, 0, 0⟩, ⟨1, 2, 1⟩, ⟨1, 2, 1⟩⟩ 0 0
    (by decide)
    (by norm_num [AssetTestScene.getBoundingBox, soloScene, soloMesh,
          defaultNode, Vec3.minimize, Vec3.maximize, Vec3.subtract])
    (by norm_num [AssetTestScene.currentSizeOf])
    (by decide) (by decide)

/-- C8: when the combined bounding box is degenerate (`currentSize = 0`), the
scale-factor division is unguarded and yields positive infinity (for a
positive target size); the remaining pipeline still executes — the chosen
node's scaling is assigned the non-finite uniform factor, the asset's name is
still appended to the loaded-assets list, and the position assignment still
runs — in both scene files. -/
theorem c8_degenerate_box (st : SceneState) (resultMeshes : List Nat)
    (pos rot : Vec3) (name : String) (ts : ℚ) (bb : BoundingBoxResult)
    (root target : Nat)
    (hmesh : resultMeshes.filter (fun i => (st.nodes i).isMesh) ≠ [])
    (hbb : AssetTestScene.getBoundingBox
        ((resultMeshes.filter fun i => (st.nodes i).isMesh).map st.nodes)
      = some bb)
    (hdeg : AssetTestScene.currentSizeOf bb = 0)
    (hts : 0 < ts)
    (hroot : root = AssetTestScene.rootMeshOf st.nodes resultMeshes)
    (htarget : target = (match (st.nodes root).parent with
        | some p => if (st.nodes p).hasScaling then p else root
        | none => root)) :
    AssetTestScene.scaleFactorOf ts bb = JsNum.posInf
    ∧ (((AssetTestScene.loadAsset st (Except.ok resultMeshes) pos name
          ts).1.nodes target).scaling
        = ⟨JsNum.posInf, JsNum.posInf, JsNum.posInf⟩)
    ∧ ((AssetTestScene.loadAsset st (Except.ok resultMeshes) pos name
          ts).1.loadedAssets = st.loadedAssets ++ [name])
    ∧ (((ArcheryGameScene.loadAsset st (Except.ok resultMeshes) pos rot name
          ts).1.nodes target).scaling
        = ⟨JsNum.posInf, JsNum.posInf, JsNum.posInf⟩)
    ∧ ((ArcheryGameScene.loadAsset st (Except.ok resultMeshes) pos rot name
          ts).1.loadedAssets = st.loadedAssets ++ [name])
    ∧ ((st.nodes root).parent = none →
        ((AssetTestScene.loadAsset st (Except.ok resultMeshes) pos name
          ts).1.nodes root).position = pos) := by
  have hlen : resultMeshes.length > 0 := by
    rcases resultMeshes with _ | ⟨a, l⟩
    · simp at hmesh
    · simp
  have hfl : ¬((resultMeshes.filter fun i => (st.nodes i).isMesh).length = 0) := by
    simpa [List.length_eq_zero] using hmesh
  have hsf : AssetTestScene.scaleFactorOf ts bb = JsNum.posInf := by
    unfold AssetTestScene.scaleFactorOf jsDiv
    rw [if_pos hdeg, if_pos hts]
  have hbbG : ArcheryGameScene.getBoundingBox
      ((resultMeshes.filter fun i => (st.nodes i).isMesh).map st.nodes)
      = some bb := by
    rw [← getBoundingBox_eq]; exact hbb
  have hsfG : ArcheryGameScene.scaleFactorOf ts bb = JsNum.posInf := by
    rw [← scaleFactorOf_eq]; exact hsf
  have hrootG : root = ArcheryGameScene.rootMeshOf st.nodes resultMeshes := by
    rw [← rootMeshOf_eq]; exact hroot
  refine ⟨hsf, ?_, ?_, ?_, ?_, ?_⟩
  · simp only [AssetTestScene.loadAsset, hbb]
    rw [if_pos hlen, if_neg hfl, ← hroot]
    rcases hp : (st.nodes root).parent with _ | p
    · rw [hp] at htarget
      have ht2 : target = root := htarget
      subst ht2
      simp only [hp]
      simp [hsf]
    · rw [hp] at htarget
      have ht2 : target
          = if (st.nodes p).hasScaling = true then p else root := htarget
      by_cases hs : (st.nodes p).hasScaling = true
      · rw [if_pos hs] at ht2
        subst ht2
        clear htarget
        simp only [hp]
        repeat' split
        all_goals simp_all [hsf]
      · rw [if_neg hs] at ht2
        subst ht2
        clear htarget
        simp only [hp]
        repeat' split
        all_goals simp_all [hsf]
  · rw [AssetTestScene.loadAsset_fst_loadedAssets]
    simp [AssetTestScene.succeeds, hlen, hfl]
  · simp only [ArcheryGameScene.loadAsset, hbbG]
    rw [if_pos hlen, if_neg hfl, ← hrootG]
    rcases hp : (st.nodes root).parent with _ | p
    · rw [hp] at htarget
      have ht2 : target = root := htarget
      subst ht2
      simp only [hp]
      simp [hsfG]
    · rw [hp] at htarget
      have ht2 : target
          = if (st.nodes p).hasScaling = true then p else root := htarget
      by_cases hs : (st.nodes p).hasScaling = true
      · rw [if_pos hs] at ht2
        subst ht2
        clear htarget
        simp only [hp]
        repeat' split
        all_goals simp_all [hsfG]
      · rw [if_neg hs] at ht2
        subst ht2
        clear htarget
        simp only [hp]
        repeat' split
        all_goals simp_all [hsfG]
  · rw [ArcheryGameScene.game_loadAsset_fst_loadedAssets]
    simp [ArcheryGameScene.succeeds, hlen, hfl]
  · intro hpnone
    simp only [AssetTestScene.loadAsset, hbb]
    rw [if_pos hlen, if_neg hfl, ← hroot]
    simp only [hpnone]
    simp

/-- Witness for C8: the degenerate single-point mesh of `degenerateScene`
with target size 2 gets an infinite uniform scale, yet is still positioned
and listed. -/
theorem c8_degenerate_box_witness :
    AssetTestScene.scaleFactorOf 2 ⟨⟨1, 1, 1⟩, ⟨1, 1, 1⟩, ⟨0, 0, 0⟩⟩
        = JsNum.posInf
    ∧ (((AssetTestScene.loadAsset degenerateScene (Except.ok [0]) ⟨4, 5, 6⟩
          "Target" 2).1.nodes 0).scaling
        = ⟨JsNum.posInf, JsNum.posInf, JsNum.posInf⟩)
    ∧ ((AssetTestScene.loadAsset degenerateScene (Except.ok [0]) ⟨4, 5, 6⟩
          "Target" 2).1.loadedAssets = degenerateScene.loadedAssets ++ ["Target"])
    ∧ (((ArcheryGameScene.loadAsset degenerateScene (Except.ok [0]) ⟨4, 5, 6⟩
          ⟨0, 0, 0⟩ "Target" 2).1.nodes 0).scaling
        = ⟨JsNum.posInf, JsNum.posInf, JsNum.posInf⟩)
    ∧ ((ArcheryGameScene.loadAsset degenerateScene (Except.ok [0]) ⟨4, 5, 6⟩
          ⟨0, 0, 0⟩ "Target" 2).1.loadedAssets
        = degenerateScene.loadedAssets ++ ["Target"])
    ∧ ((degenerateScene.nodes 0).parent = none →
        ((AssetTestScene.loadAsset degenerateScene (Except.ok [0]) ⟨4, 5, 6⟩
          "Target" 2).1.nodes 0).position = ⟨4, 5, 6⟩) :=
  c8_degenerate_box degenerateScene [0] ⟨4, 5, 6⟩ ⟨0, 0, 0⟩ "Target" 2
    ⟨⟨1, 1, 1⟩, ⟨1, 1, 1⟩, ⟨0, 0, 0⟩⟩ 0 0
    (by decide)
    (by norm_num [AssetTestScene.getBoundingBox, degenerateScene,
          degenerateMesh, soloMesh, defaultNode, Vec3.minimize, Vec3.maximize,
          Vec3.subtract])
    (by norm_num [AssetTestScene.currentSizeOf])
    (by norm_num)
    (by decide) (by decide)

namespace AssetTestScene

/-- The test scene's `loadAsset` is `async` with no `return` value on any
path: it always resolves with `undefined`. -/
lemma loadAsset_snd_none (st : SceneState) (res : Except Unit (List Nat))
    (pos : Vec3) (name : String) (ts : ℚ) :
    (loadAsset st res pos name ts).2 = none := by
  rcases res with e | rm
  · rfl
  · simp only [loadAsset]
    repeat' split
    all_goals rfl

end AssetTestScene

/-- C6 counterexample: in the game scene a load that succeeds with an empty
`result.meshes` array is a completely silent no-op — contrary to the claim,
no diagnostic is logged (the test scene does log one); no transform is
applied and nothing is appended. -/
theorem c6_counterexample :
    (ArcheryGameScene.loadAsset soloScene (Except.ok []) ⟨0, 0, 0⟩ ⟨0, 0, 0⟩
        "Ghost" 2).1.log = ([] : List LogEvent)
    ∧ (ArcheryGameScene.loadAsset soloScene (Except.ok []) ⟨0, 0, 0⟩ ⟨0, 0, 0⟩
        "Ghost" 2) = (soloScene, none) :=
  ⟨rfl, rfl⟩

/-- C6 (amended): a load that yields zero usable mesh nodes applies no
transform to any node, appends nothing to the loaded-assets list, and stops
(returning no node); the test scene always logs a diagnostic (one message
for an empty `result.meshes`, another when every node fails the mesh
filter), while the game scene logs the diagnostic only when `result.meshes`
is non-empty and is a silent no-op when it is empty. -/
theorem c6_empty_geometry (st : SceneState) (resultMeshes : List Nat)
    (pos rot : Vec3) (name : String) (ts : ℚ)
    (h : resultMeshes.filter (fun i => (st.nodes i).isMesh) = []) :
    (resultMeshes = [] →
        AssetTestScene.loadAsset st (Except.ok resultMeshes) pos name ts
          = ({ st with log := st.log ++ [LogEvent.warnNoMeshes name] }, none)
        ∧ ArcheryGameScene.loadAsset st (Except.ok resultMeshes) pos rot name
            ts = (st, none))
    ∧ (resultMeshes ≠ [] →
        AssetTestScene.loadAsset st (Except.ok resultMeshes) pos name ts
          = ({ st with
                log := st.log ++ [LogEvent.warnNoValidMeshes name] }, none)
        ∧ ArcheryGameScene.loadAsset st (Except.ok resultMeshes) pos rot name
            ts
          = ({ st with
                log := st.log ++ [LogEvent.warnNoValidMeshes name] }, none)) := by
  constructor
  · rintro rfl
    exact ⟨rfl, rfl⟩
  · intro hne
    have hlen : resultMeshes.length > 0 := by
      rcases resultMeshes with _ | ⟨a, l⟩
      · exact absurd rfl hne
      · simp
    have hfl : (resultMeshes.filter fun i => (st.nodes i).isMesh).length = 0 := by
      simp [h]
    constructor
    · simp only [AssetTestScene.loadAsset]
      rw [if_pos hlen, if_pos hfl]
    · simp only [ArcheryGameScene.loadAsset]
      rw [if_pos hlen, if_pos hfl]

/-- Witness for C6 (amended) at the concrete list `[1]` in `soloScene`, whose
only entry is not a mesh. -/
theorem c6_empty_geometry_witness :
    (([1] : List Nat) = [] →
        AssetTestScene.loadAsset soloScene (Except.ok [1]) ⟨0, 0, 0⟩ "Ghost" 2
          = ({ soloScene with
                log := soloScene.log ++ [LogEvent.warnNoMeshes "Ghost"] },
             none)
        ∧ ArcheryGameScene.loadAsset soloScene (Except.ok [1]) ⟨0, 0, 0⟩
            ⟨0, 0, 0⟩ "Ghost" 2 = (soloScene, none))
    ∧ (([1] : List Nat) ≠ [] →
        AssetTestScene.loadAsset soloScene (Except.ok [1]) ⟨0, 0, 0⟩ "Ghost" 2
          = ({ soloScene with
                log := soloScene.log
                  ++ [LogEvent.warnNoValidMeshes "Ghost"] }, none)
        ∧ ArcheryGameScene.loadAsset soloScene (Except.ok [1]) ⟨0, 0, 0⟩
            ⟨0, 0, 0⟩ "Ghost" 2
          = ({ soloScene with
                log := soloScene.log
                  ++ [LogEvent.warnNoValidMeshes "Ghost"] }, none)) :=
  c6_empty_geometry soloScene [1] ⟨0, 0, 0⟩ ⟨0, 0, 0⟩ "Ghost" 2 (by decide)

/-- C5 counterexample: in `AssetTestScene.tsx` `loadAsset` is `async` with no
`return` statement on the success path, so a successful placement (the name
is appended) resolves with no root-node reference, contrary to the claim
that every successful placement returns the root node reference. -/
theorem c5_counterexample :
    (AssetTestScene.loadAsset soloScene (Except.ok [0]) ⟨0, 0, 0⟩ "Arrow"
        2).2 = none
    ∧ (AssetTestScene.loadAsset soloScene (Except.ok [0]) ⟨0, 0, 0⟩ "Arrow"
        2).1.loadedAssets = ["Arrow"] :=
  ⟨AssetTestScene.loadAsset_snd_none soloScene (Except.ok [0]) ⟨0, 0, 0⟩
      "Arrow" 2,
   rfl⟩

/-- C5 (amended): in the game scene a successful placement returns the root
node reference and appends exactly one entry, the asset's display name; in
the test scene the `async` function resolves with no value but still appends
exactly one entry.  In both interpretations the loaded-assets list is the
fold of the per-task append over the completion order of the concurrent
loads, so its order is completion order, not request order. -/
theorem c5_return_and_append (st : SceneState) (resultMeshes : List Nat)
    (pos rot : Vec3) (name : String) (ts : ℚ)
    (hmesh : resultMeshes.filter (fun i => (st.nodes i).isMesh) ≠ []) :
    (ArcheryGameScene.loadAsset st (Except.ok resultMeshes) pos rot name
        ts).2 = some (ArcheryGameScene.rootMeshOf st.nodes resultMeshes)
    ∧ (ArcheryGameScene.loadAsset st (Except.ok resultMeshes) pos rot name
        ts).1.loadedAssets = st.loadedAssets ++ [name]
    ∧ (AssetTestScene.loadAsset st (Except.ok resultMeshes) pos name ts).2
        = none
    ∧ (AssetTestScene.loadAsset st (Except.ok resultMeshes) pos name
        ts).1.loadedAssets = st.loadedAssets ++ [name]
    ∧ (∀ (st0 : SceneState) (completed : List ArcheryGameScene.LoadRequest),
        (ArcheryGameScene.runLoads st0 completed).loadedAssets
          = st0.loadedAssets ++ completed.filterMap (fun r =>
              if ArcheryGameScene.succeeds st0.nodes r then some r.name
              else none)) := by
  have hlen : resultMeshes.length > 0 := by
    rcases resultMeshes with _ | ⟨a, l⟩
    · simp at hmesh
    · simp
  have hfl : ¬((resultMeshes.filter fun i => (st.nodes i).isMesh).length
      = 0) := by
    simpa [List.length_eq_zero] using hmesh
  refine ⟨ArcheryGameScene.loadAsset_snd_ok st resultMeshes pos rot name ts
      hmesh, ?_, ?_, ?_, ?_⟩
  · rw [ArcheryGameScene.game_loadAsset_fst_loadedAssets]
    simp [ArcheryGameScene.succeeds, hlen, hfl]
  · exact AssetTestScene.loadAsset_snd_none st (Except.ok resultMeshes) pos
      name ts
  · rw [AssetTestScene.loadAsset_fst_loadedAssets]
    simp [AssetTestScene.succeeds, hlen, hfl]
  · intro st0 completed
    exact ArcheryGameScene.game_runLoads_loadedAssets completed st0

/-- Witness for C5 (amended): loading the parentless mesh of `soloScene`
returns root 0 and appends exactly "Bow" in the game scene, returns nothing
in the test scene, and a concrete two-task batch (one success, one failure)
lists exactly the successful load, in completion order. -/
theorem c5_return_and_append_witness :
    (ArcheryGameScene.loadAsset soloScene (Except.ok [0]) ⟨0, 0, 0⟩
        ⟨0, 0, 0⟩ "Bow" 2).2
      = some (ArcheryGameScene.rootMeshOf soloScene.nodes [0])
    ∧ (ArcheryGameScene.loadAsset soloScene (Except.ok [0]) ⟨0, 0, 0⟩
        ⟨0, 0, 0⟩ "Bow" 2).1.loadedAssets = soloScene.loadedAssets ++ ["Bow"]
    ∧ (AssetTestScene.loadAsset soloScene (Except.ok [0]) ⟨0, 0, 0⟩ "Bow"
        2).2 = none
    ∧ (AssetTestScene.loadAsset soloScene (Except.ok [0]) ⟨0, 0, 0⟩ "Bow"
        2).1.loadedAssets = soloScene.loadedAssets ++ ["Bow"]
    ∧ ((ArcheryGameScene.runLoads soloScene
          [⟨Except.error (), ⟨0, 0, 0⟩, ⟨0, 0, 0⟩, "Missing", 2⟩,
           ⟨Except.ok [0], ⟨0, 0, 0⟩, ⟨0, 0, 0⟩, "Bow", 2⟩]).loadedAssets
        = soloScene.loadedAssets
          ++ ([⟨Except.error (), ⟨0, 0, 0⟩, ⟨0, 0, 0⟩, "Missing", 2⟩,
               ⟨Except.ok [0], ⟨0, 0, 0⟩, ⟨0, 0, 0⟩, "Bow", 2⟩]
              : List ArcheryGameScene.LoadRequest).filterMap (fun r =>
                if ArcheryGameScene.succeeds soloScene.nodes r then some r.name
                else none)) := by
  have h := c5_return_and_append soloScene [0] ⟨0, 0, 0⟩ ⟨0, 0, 0⟩ "Bow" 2
    (by decide)
  exact ⟨h.1, h.2.1, h.2.2.1, h.2.2.2.1,
    h.2.2.2.2 soloScene
      [⟨Except.error (), ⟨0, 0, 0⟩, ⟨0, 0, 0⟩, "Missing", 2⟩,
       ⟨Except.ok [0], ⟨0, 0, 0⟩, ⟨0, 0, 0⟩, "Bow", 2⟩]⟩

/-- C7: any error raised during a load is caught and logged inside that
asset's task, which resolves without touching the scene graph or the list
(the asset is merely omitted); a batch of concurrent loads still completes
the other tasks, the list holds exactly the successful loads in completion
order, and the loading flag becomes false after all tasks settle — in both
scene files. -/
theorem c7_partial_failure :
    (∀ (st : SceneState) (pos rot : Vec3) (name : String) (ts : ℚ),
        ArcheryGameScene.loadAsset st (Except.error ()) pos rot name ts
          = ({ st with log := st.log ++ [LogEvent.errorLoading name] }, none))
    ∧ (∀ (st : SceneState) (pos : Vec3) (name : String) (ts : ℚ),
        AssetTestScene.loadAsset st (Except.error ()) pos name ts
          = ({ st with log := st.log ++ [LogEvent.errorLoading name] }, none))
    ∧ (∀ (st0 : SceneState) (completed : List ArcheryGameScene.LoadRequest),
        (ArcheryGameScene.runBatch st0 completed).loading = false
        ∧ (ArcheryGameScene.runBatch st0 completed).scene.loadedAssets
            = st0.loadedAssets ++ completed.filterMap (fun r =>
                if ArcheryGameScene.succeeds st0.nodes r then some r.name
                else none))
    ∧ (∀ (st0 : SceneState) (completed : List AssetTestScene.LoadRequest),
        (AssetTestScene.runBatch st0 completed).loading = false
        ∧ (AssetTestScene.runBatch st0 completed).scene.loadedAssets
            = st0.loadedAssets ++ completed.filterMap (fun r =>
                if AssetTestScene.succeeds st0.nodes r then some r.name
                else none)) := by
  refine ⟨fun st pos rot name ts => rfl, fun st pos name ts => rfl, ?_, ?_⟩
  · intro st0 completed
    exact ⟨rfl, ArcheryGameScene.game_runLoads_loadedAssets completed st0⟩
  · intro st0 completed
    exact ⟨rfl, AssetTestScene.runLoads_loadedAssets completed st0⟩

/-- C4 counterexample: the code probes `'scaling' in parent` and
`'position' in parent` independently.  In `parentedScene` the root's parent
(node 1) has a `scaling` property but no `position` property (as a
camera-like node does), so the scale is applied to the parent while the
position is applied to the root itself — not to "the same target chosen for
the scale" — and the root's local position is not reset to the origin even
though a parent exists. -/
theorem c4_counterexample :
    (((AssetTestScene.loadAsset parentedScene (Except.ok [0]) ⟨5, 5, 5⟩
        "Bow" 6).1.nodes 1).scaling = ⟨JsNum.fin 3, JsNum.fin 3, JsNum.fin 3⟩)
    ∧ (((AssetTestScene.loadAsset parentedScene (Except.ok [0]) ⟨5, 5, 5⟩
        "Bow" 6).1.nodes 1).position = ⟨7, 7, 7⟩)
    ∧ (((AssetTestScene.loadAsset parentedScene (Except.ok [0]) ⟨5, 5, 5⟩
        "Bow" 6).1.nodes 1).position ≠ ⟨5, 5, 5⟩)
    ∧ (((AssetTestScene.loadAsset parentedScene (Except.ok [0]) ⟨5, 5, 5⟩
        "Bow" 6).1.nodes 0).position = ⟨5, 5, 5⟩)
    ∧ (((AssetTestScene.loadAsset parentedScene (Except.ok [0]) ⟨5, 5, 5⟩
        "Bow" 6).1.nodes 0).position ≠ Vec3.zero) := by
  refine ⟨?_, ?_, ?_, ?_, ?_⟩ <;>
    norm_num [AssetTestScene.loadAsset, AssetTestScene.rootMeshOf,
      AssetTestScene.getBoundingBox, AssetTestScene.scaleFactorOf,
      AssetTestScene.currentSizeOf, jsDiv, parentedScene, childMesh, soloMesh,
      scaleOnlyParent, defaultNode, setScaling, setPosition, setRotation,
      Vec3.minimize, Vec3.maximize, Vec3.subtract, Vec3.zero, List.find?]

/-- C4 (amended): for every successful placement, the scale factor is applied
to the root's parent exactly when the parent exists and has a `scaling`
property, otherwise to the root; the position is applied to the parent
exactly when the parent has a `position` property, otherwise to the root
(these targets coincide for transform nodes, which carry both properties);
in the game scene the rotation follows the position target but additionally
requires the parent to have a `rotation` property, and is dropped when the
parent has a position but no rotation; the root's local position is reset to
the origin exactly when the parent has a `position` property, and the root's
other local fields are left untouched. -/
theorem c4_transform_targets (st : SceneState) (resultMeshes : List Nat)
    (pos rot : Vec3) (name : String) (ts : ℚ) (root : Nat)
    (hmesh : resultMeshes.filter (fun i => (st.nodes i).isMesh) ≠ [])
    (hroot : root = ArcheryGameScene.rootMeshOf st.nodes resultMeshes) :
    ((st.nodes root).parent = none →
        ((ArcheryGameScene.loadAsset st (Except.ok resultMeshes) pos rot name
            ts).1.nodes root).position = pos
        ∧ ((ArcheryGameScene.loadAsset st (Except.ok resultMeshes) pos rot
            name ts).1.nodes root).rotation = rot
        ∧ ((AssetTestScene.loadAsset st (Except.ok resultMeshes) pos name
            ts).1.nodes root).position = pos)
    ∧ (∀ p, (st.nodes root).parent = some p → p ≠ root →
        ((st.nodes p).hasPosition = true →
            ((ArcheryGameScene.loadAsset st (Except.ok resultMeshes) pos rot
                name ts).1.nodes p).position = pos
          ∧ ((ArcheryGameScene.loadAsset st (Except.ok resultMeshes) pos rot
                name ts).1.nodes root).position = Vec3.zero
          ∧ ((st.nodes p).hasRotation = true →
              ((ArcheryGameScene.loadAsset st (Except.ok resultMeshes) pos
                  rot name ts).1.nodes p).rotation = rot)
          ∧ ((st.nodes p).hasRotation = false →
              ((ArcheryGameScene.loadAsset st (Except.ok resultMeshes) pos
                  rot name ts).1.nodes p).rotation = (st.nodes p).rotation)
          ∧ ((ArcheryGameScene.loadAsset st (Except.ok resultMeshes) pos rot
                name ts).1.nodes root).rotation = (st.nodes root).rotation
          ∧ ((st.nodes p).hasScaling = true →
              ((ArcheryGameScene.loadAsset st (Except.ok resultMeshes) pos
                  rot name ts).1.nodes root).scaling
                = (st.nodes root).scaling)
          ∧ ((AssetTestScene.loadAsset st (Except.ok resultMeshes) pos name
                ts).1.nodes p).position = pos
          ∧ ((AssetTestScene.loadAsset st (Except.ok resultMeshes) pos name
                ts).1.nodes root).position = Vec3.zero)
        ∧ ((st.nodes p).hasPosition = false →
            ((ArcheryGameScene.loadAsset st (Except.ok resultMeshes) pos rot
                name ts).1.nodes root).position = pos
          ∧ ((ArcheryGameScene.loadAsset st (Except.ok resultMeshes) pos rot
                name ts).1.nodes root).rotation = rot
          ∧ ((ArcheryGameScene.loadAsset st (Except.ok resultMeshes) pos rot
                name ts).1.nodes p).position = (st.nodes p).position
          ∧ ((AssetTestScene.loadAsset st (Except.ok resultMeshes) pos name
                ts).1.nodes root).position = pos
          ∧ ((AssetTestScene.loadAsset st (Except.ok resultMeshes) pos name
                ts).1.nodes p).position = (st.nodes p).position)) := by
  have hlen : resultMeshes.length > 0 := by
    rcases resultMeshes with _ | ⟨a, l⟩
    · simp at hmesh
    · simp
  have hfl : ¬((resultMeshes.filter fun i => (st.nodes i).isMesh).length
      = 0) := by
    simpa [List.length_eq_zero] using hmesh
  have hrootT : root = AssetTestScene.rootMeshOf st.nodes resultMeshes := by
    rw [rootMeshOf_eq]; exact hroot
  constructor
  · intro hp
    refine ⟨?_, ?_, ?_⟩
    · simp only [ArcheryGameScene.loadAsset]
      rw [if_pos hlen, if_neg hfl, ← hroot]
      simp only [hp]
      repeat' split
      all_goals simp
    · simp only [ArcheryGameScene.loadAsset]
      rw [if_pos hlen, if_neg hfl, ← hroot]
      simp only [hp]
      repeat' split
      all_goals simp
    · simp only [AssetTestScene.loadAsset]
      rw [if_pos hlen, if_neg hfl, ← hrootT]
      simp only [hp]
      repeat' split
      all_goals simp
  · intro p hp hne
    have hne' : root ≠ p := Ne.symm hne
    constructor
    · intro hpp
      refine ⟨?_, ?_, ?_, ?_, ?_, ?_, ?_, ?_⟩
      · simp only [ArcheryGameScene.loadAsset]
        rw [if_pos hlen, if_neg hfl, ← hroot]
        simp only [hp, hpp]
        repeat' split
        all_goals simp_all
      · simp only [ArcheryGameScene.loadAsset]
        rw [if_pos hlen, if_neg hfl, ← hroot]
        simp only [hp, hpp]
        repeat' split
        all_goals simp_all
      · intro hrt
        simp only [ArcheryGameScene.loadAsset]
        rw [if_pos hlen, if_neg hfl, ← hroot]
        simp only [hp, hpp, hrt]
        repeat' split
        all_goals simp_all
      · intro hrf
        simp only [ArcheryGameScene.loadAsset]
        rw [if_pos hlen, if_neg hfl, ← hroot]
        simp only [hp, hpp, hrf]
        repeat' split
        all_goals simp_all
      · simp only [ArcheryGameScene.loadAsset]
        rw [if_pos hlen, if_neg hfl, ← hroot]
        simp only [hp, hpp]
        repeat' split
        all_goals simp_all
      · intro hsc
        simp only [ArcheryGameScene.loadAsset]
        rw [if_pos hlen, if_neg hfl, ← hroot]
        simp only [hp, hpp, hsc]
        repeat' split
        all_goals simp_all
      · simp only [AssetTestScene.loadAsset]
        rw [if_pos hlen, if_neg hfl, ← hrootT]
        simp only [hp, hpp]
        repeat' split
        all_goals simp_all
      · simp only [AssetTestScene.loadAsset]
        rw [if_pos hlen, if_neg hfl, ← hrootT]
        simp only [hp, hpp]
        repeat' split
        all_goals simp_all
    · intro hpf
      refine ⟨?_, ?_, ?_, ?_, ?_⟩
      · simp only [ArcheryGameScene.loadAsset]
        rw [if_pos hlen, if_neg hfl, ← hroot]
        simp only [hp, hpf]
        repeat' split
        all_goals simp_all
      · simp only [ArcheryGameScene.loadAsset]
        rw [if_pos hlen, if_neg hfl, ← hroot]
        simp only [hp, hpf]
        repeat' split
        all_goals simp_all
      · simp only [ArcheryGameScene.loadAsset]
        rw [if_pos hlen, if_neg hfl, ← hroot]
        simp only [hp, hpf]
        repeat' split
        all_goals simp_all
      · simp only [AssetTestScene.loadAsset]
        rw [if_pos hlen, if_neg hfl, ← hrootT]
        simp only [hp, hpf]
        repeat' split
        all_goals simp_all
      · simp only [AssetTestScene.loadAsset]
        rw [if_pos hlen, if_neg hfl, ← hrootT]
        simp only [hp, hpf]
        repeat' split
        all_goals simp_all

/-- Witness for C4 (amended): in `parentedScene` the parent (node 1) has no
`position` property, so both scenes apply the position (and the game scene
the rotation) to the root, and the parent's position is untouched. -/
theorem c4_transform_targets_witness :
    ((ArcheryGameScene.loadAsset parentedScene (Except.ok [0]) ⟨5, 5, 5⟩
        ⟨1, 2, 3⟩ "Bow" 6).1.nodes 0).position = ⟨5, 5, 5⟩
    ∧ ((ArcheryGameScene.loadAsset parentedScene (Except.ok [0]) ⟨5, 5, 5⟩
        ⟨1, 2, 3⟩ "Bow" 6).1.nodes 0).rotation = ⟨1, 2, 3⟩
    ∧ ((ArcheryGameScene.loadAsset parentedScene (Except.ok [0]) ⟨5, 5, 5⟩
        ⟨1, 2, 3⟩ "Bow" 6).1.nodes 1).position
      = (parentedScene.nodes 1).position
    ∧ ((AssetTestScene.loadAsset parentedScene (Except.ok [0]) ⟨5, 5, 5⟩
        "Bow" 6).1.nodes 0).position = ⟨5, 5, 5⟩
    ∧ ((AssetTestScene.loadAsset parentedScene (Except.ok [0]) ⟨5, 5, 5⟩
        "Bow" 6).1.nodes 1).position = (parentedScene.nodes 1).position :=
  ((c4_transform_targets parentedScene [0] ⟨5, 5, 5⟩ ⟨1, 2, 3⟩ "Bow" 6 0
      (by decide) (by decide)).2 1 (by decide) (by decide)).2 (by decide)

/-- C10: in the archery game scene, after all loads settle, if the bow asset
loaded successfully and its root is a mesh, the completion handler re-parents
the bow to the camera and overwrites its position to `(0, -0.2, 1.2)` and its
rotation to `(0, Math.PI/12, Math.PI/2)`; hence the position `(0,0,0)` and
rotation `(0,0,0)` supplied in the bow's placement request are not its final
transform.  This holds for either completion order, for any outcome of the
target's load, and for any local transform the engine's `setParent`
computes; the loading flag is false afterwards. -/
theorem c10_bow_reparented (st0 : SceneState) (cameraIdx : Nat) (mathPI : ℚ)
    (bowIdxs : List Nat) (targetResult : Except Unit (List Nat))
    (bowFirst : Bool) (rc : ArcheryGameScene.SetParentRecompute) (b : Nat)
    (hmesh : bowIdxs.filter (fun i => (st0.nodes i).isMesh) ≠ [])
    (hb : b = ArcheryGameScene.rootMeshOf st0.nodes bowIdxs)
    (hbMesh : (st0.nodes b).isMesh = true) :
    ((ArcheryGameScene.runScene st0 cameraIdx mathPI (Except.ok bowIdxs)
        targetResult bowFirst rc).1.scene.nodes b).parent = some cameraIdx
    ∧ ((ArcheryGameScene.runScene st0 cameraIdx mathPI (Except.ok bowIdxs)
        targetResult bowFirst rc).1.scene.nodes b).position
      = ⟨0, -(1/5), 6/5⟩
    ∧ ((ArcheryGameScene.runScene st0 cameraIdx mathPI (Except.ok bowIdxs)
        targetResult bowFirst rc).1.scene.nodes b).rotation
      = ⟨0, mathPI/12, mathPI/2⟩
    ∧ (ArcheryGameScene.runScene st0 cameraIdx mathPI (Except.ok bowIdxs)
        targetResult bowFirst rc).1.loading = false
    ∧ ((ArcheryGameScene.runScene st0 cameraIdx mathPI (Except.ok bowIdxs)
        targetResult bowFirst rc).1.scene.nodes b).position ≠ ⟨0, 0, 0⟩
    ∧ (mathPI ≠ 0 →
        ((ArcheryGameScene.runScene st0 cameraIdx mathPI (Except.ok bowIdxs)
          targetResult bowFirst rc).1.scene.nodes b).rotation
          ≠ ⟨0, 0, 0⟩) := by
  have key : ((ArcheryGameScene.runScene st0 cameraIdx mathPI
        (Except.ok bowIdxs) targetResult bowFirst rc).1.scene.nodes b).parent
        = some cameraIdx
      ∧ ((ArcheryGameScene.runScene st0 cameraIdx mathPI (Except.ok bowIdxs)
        targetResult bowFirst rc).1.scene.nodes b).position
        = ⟨0, -(1/5), 6/5⟩
      ∧ ((ArcheryGameScene.runScene st0 cameraIdx mathPI (Except.ok bowIdxs)
        targetResult bowFirst rc).1.scene.nodes b).rotation
        = ⟨0, mathPI/12, mathPI/2⟩ := by
    cases bowFirst with
    | true =>
      have hsnd := ArcheryGameScene.loadAsset_snd_ok st0 bowIdxs ⟨0, 0, 0⟩
        ⟨0, 0, 0⟩ "Recurve Bow" (4/5) hmesh
      rw [← hb] at hsnd
      have hm1 : (((ArcheryGameScene.loadAsset
          ((ArcheryGameScene.loadAsset st0 (Except.ok bowIdxs) ⟨0, 0, 0⟩
            ⟨0, 0, 0⟩ "Recurve Bow" (4/5)).1) targetResult ⟨0, 3/2, 12⟩
            ⟨0, mathPI/2, 0⟩ "Target" 4).1).nodes b).isMesh = true := by
        rw [ArcheryGameScene.game_loadAsset_nodes_isMesh,
            ArcheryGameScene.game_loadAsset_nodes_isMesh]
        exact hbMesh
      simp only [ArcheryGameScene.runScene, if_true]
      rw [hsnd]
      simp only [hm1, if_true]
      refine ⟨?_, ?_, ?_⟩ <;>
        simp [ArcheryGameScene.setParentToCamera]
    | false =>
      have hmEq : ∀ i, (((ArcheryGameScene.loadAsset st0 targetResult
            ⟨0, 3/2, 12⟩ ⟨0, mathPI/2, 0⟩ "Target" 4).1).nodes i).isMesh
          = (st0.nodes i).isMesh :=
        fun i => ArcheryGameScene.game_loadAsset_nodes_isMesh st0 targetResult
          ⟨0, 3/2, 12⟩ ⟨0, mathPI/2, 0⟩ "Target" 4 i
      have hparEq : ∀ i, (((ArcheryGameScene.loadAsset st0 targetResult
            ⟨0, 3/2, 12⟩ ⟨0, mathPI/2, 0⟩ "Target" 4).1).nodes i).parent
          = (st0.nodes i).parent :=
        fun i => ArcheryGameScene.game_loadAsset_nodes_parent st0 targetResult
          ⟨0, 3/2, 12⟩ ⟨0, mathPI/2, 0⟩ "Target" 4 i
      have hfs : (bowIdxs.filter fun i =>
            (((ArcheryGameScene.loadAsset st0 targetResult ⟨0, 3/2, 12⟩
              ⟨0, mathPI/2, 0⟩ "Target" 4).1).nodes i).isMesh)
          = bowIdxs.filter fun i => (st0.nodes i).isMesh :=
        List.filter_congr fun x _ => hmEq x
      have hne2 : (bowIdxs.filter fun i =>
            (((ArcheryGameScene.loadAsset st0 targetResult ⟨0, 3/2, 12⟩
              ⟨0, mathPI/2, 0⟩ "Target" 4).1).nodes i).isMesh) ≠ [] := by
        rw [hfs]; exact hmesh
      have hsnd := ArcheryGameScene.loadAsset_snd_ok
        ((ArcheryGameScene.loadAsset st0 targetResult ⟨0, 3/2, 12⟩
          ⟨0, mathPI/2, 0⟩ "Target" 4).1) bowIdxs ⟨0, 0, 0⟩ ⟨0, 0, 0⟩
        "Recurve Bow" (4/5) hne2
      have hrm : ArcheryGameScene.rootMeshOf
          ((ArcheryGameScene.loadAsset st0 targetResult ⟨0, 3/2, 12⟩
            ⟨0, mathPI/2, 0⟩ "Target" 4).1).nodes bowIdxs = b := by
        rw [ArcheryGameScene.rootMeshOf_congr st0.nodes _ hparEq bowIdxs]
        exact hb.symm
      rw [hrm] at hsnd
      have hm1 : (((ArcheryGameScene.loadAsset
          ((ArcheryGameScene.loadAsset st0 targetResult ⟨0, 3/2, 12⟩
            ⟨0, mathPI/2, 0⟩ "Target" 4).1) (Except.ok bowIdxs) ⟨0, 0, 0⟩
            ⟨0, 0, 0⟩ "Recurve Bow" (4/5)).1).nodes b).isMesh = true := by
        rw [ArcheryGameScene.game_loadAsset_nodes_isMesh, hmEq b]
        exact hbMesh
      simp only [ArcheryGameScene.runScene, Bool.false_eq_true, if_false]
      rw [hsnd]
      simp only [hm1, if_true]
      refine ⟨?_, ?_, ?_⟩ <;>
        simp [ArcheryGameScene.setParentToCamera]
  refine ⟨key.1, key.2.1, key.2.2, rfl, ?_, ?_⟩
  · rw [key.2.1]
    intro hcon
    have hy := congrArg Vec3.y hcon
    norm_num at hy
  · intro hpi
    rw [key.2.2]
    intro hcon
    have hy := congrArg Vec3.y hcon
    simp only at hy
    rcases div_eq_zero_iff.1 hy with h | h
    · exact hpi h
    · norm_num at h

/-- Witness for C10: with `Math.PI` modelled as 3, camera at index 7, the bow
at index 0 of `soloScene`, a failing target load, and the bow completing
first, the bow ends up parented to the camera at `(0, -0.2, 1.2)` with
rotation `(0, 3/12, 3/2)`, regardless of the request's zero transform. -/
theorem c10_bow_reparented_witness :
    ((ArcheryGameScene.runScene soloScene 7 3 (Except.ok [0])
        (Except.error ()) true ⟨⟨9, 9, 9⟩, ⟨9, 9, 9⟩,
          ⟨JsNum.fin 9, JsNum.fin 9, JsNum.fin 9⟩⟩).1.scene.nodes 0).parent
      = some 7
    ∧ ((ArcheryGameScene.runScene soloScene 7 3 (Except.ok [0])
        (Except.error ()) true ⟨⟨9, 9, 9⟩, ⟨9, 9, 9⟩,
          ⟨JsNum.fin 9, JsNum.fin 9, JsNum.fin 9⟩⟩).1.scene.nodes 0).position
      = ⟨0, -(1/5), 6/5⟩
    ∧ ((ArcheryGameScene.runScene soloScene 7 3 (Except.ok [0])
        (Except.error ()) true ⟨⟨9, 9, 9⟩, ⟨9, 9, 9⟩,
          ⟨JsNum.fin 9, JsNum.fin 9, JsNum.fin 9⟩⟩).1.scene.nodes 0).rotation
      = ⟨0, 3/12, 3/2⟩
    ∧ (ArcheryGameScene.runScene soloScene 7 3 (Except.ok [0])
        (Except.error ()) true ⟨⟨9, 9, 9⟩, ⟨9, 9, 9⟩,
          ⟨JsNum.fin 9, JsNum.fin 9, JsNum.fin 9⟩⟩).1.loading = false
    ∧ ((ArcheryGameScene.runScene soloScene 7 3 (Except.ok [0])
        (Except.error ()) true ⟨⟨9, 9, 9⟩, ⟨9, 9, 9⟩,
          ⟨JsNum.fin 9, JsNum.fin 9, JsNum.fin 9⟩⟩).1.scene.nodes 0).position
      ≠ ⟨0, 0, 0⟩
    ∧ ((ArcheryGameScene.runScene soloScene 7 3 (Except.ok [0])
        (Except.error ()) true ⟨⟨9, 9, 9⟩, ⟨9, 9, 9⟩,
          ⟨JsNum.fin 9, JsNum.fin 9, JsNum.fin 9⟩⟩).1.scene.nodes 0).rotation
      ≠ ⟨0, 0, 0⟩ := by
  have h := c10_bow_reparented soloScene 7 3 [0] (Except.error ()) true
    ⟨⟨9, 9, 9⟩, ⟨9, 9, 9⟩, ⟨JsNum.fin 9, JsNum.fin 9, JsNum.fin 9⟩⟩ 0
    (by decide) (by decide) (by decide)
  exact ⟨h.1, h.2.1, h.2.2.1, h.2.2.2.1, h.2.2.2.2.1,
    h.2.2.2.2.2 (by norm_num)⟩
